import Mathlib

/-!
Shallow embedding of the ScoutApp room page core: the permission resolver,
the member upsert performed on room entry, the shared-store documents used
by the voice channel (CallSession, VoiceChannelState, presence), the
signaling handlers, and the invite-code generation/normalization helpers.
All definitions are translated from the TypeScript source under src/.
-/

namespace ScoutApp

/-- Session descriptor exchanged during negotiation: the object
    written as offer/answer, holding a type tag and the SDP payload. -/
structure SessionDesc where
  ty : String
  sdp : String
  deriving Repr, DecidableEq

/-- Room document fields read by the room page (type RoomData in the source).
    The four settings are optional in TypeScript, modeled with Option. -/
structure RoomData where
  name : String
  adminUid : String
  joinCode : String
  defaultCanChat : Option Bool
  defaultCanCall : Option Bool
  lockChat : Option Bool
  lockCalls : Option Bool
  deriving Repr, DecidableEq

/-- Lazy backfill executed by the room-load effect: any of the four settings
    that is not a boolean is patched to its default
    (defaultCanChat true, defaultCanCall true, lockChat false, lockCalls false). -/
def roomBackfill (r : RoomData) : RoomData :=
  { r with
    defaultCanChat := some (r.defaultCanChat.getD true),
    defaultCanCall := some (r.defaultCanCall.getD true),
    lockChat := some (r.lockChat.getD false),
    lockCalls := some (r.lockCalls.getD false) }

/-- Fields of the member document written by setDoc(..., merge true) in the
    room-load effect. canChat/canCall are Option to record whether the write
    carries a boolean for them at all. -/
structure MemberWrite where
  uid : String
  name : String
  role : String
  canChat : Option Bool
  canCall : Option Bool
  deriving Repr, DecidableEq

/-- Member upsert performed on every room entry by the current page
    (src/app/room/[roomId]/page.tsx, room-load effect): role from adminUid
    comparison, and canChat/canCall written as explicit booleans, using the
    room defaults (after backfill merge) for non-admins and true for the admin. -/
def roomEntryMemberWrite (data : RoomData) (uid uname : String) : MemberWrite :=
  let isAdmin := data.adminUid == uid
  { uid := uid,
    name := uname,
    role := if isAdmin then "admin" else "member",
    canChat := some (if isAdmin then true else data.defaultCanChat.getD true),
    canCall := some (if isAdmin then true else data.defaultCanCall.getD true) }

/-- Effective chat permission (effectiveCanChat memo in the source):
    unauthenticated or no room loaded gives false; admin gives true; a truthy
    lockChat gives false; a boolean canChat override wins; otherwise the room
    default, which itself defaults to true when absent. -/
def effectiveCanChat (user : Bool) (room : Option RoomData) (isAdmin : Bool)
    (ovCanChat : Option Bool) : Bool :=
  match room with
  | none => false
  | some r =>
    if !user then false
    else if isAdmin then true
    else if r.lockChat.getD false then false
    else match ovCanChat with
      | some b => b
      | none => r.defaultCanChat.getD true

/-- Effective call permission (effectiveCanCall memo in the source), same
    shape as effectiveCanChat with lockCalls/canCall/defaultCanCall. -/
def effectiveCanCall (user : Bool) (room : Option RoomData) (isAdmin : Bool)
    (ovCanCall : Option Bool) : Bool :=
  match room with
  | none => false
  | some r =>
    if !user then false
    else if isAdmin then true
    else if r.lockCalls.getD false then false
    else match ovCanCall with
      | some b => b
      | none => r.defaultCanCall.getD true

/-- CallSession document (type CallDoc in the source): creator, optional
    offer/answer descriptors, and a status string among open, connected, ended. -/
structure CallDoc where
  createdByUid : Option String
  offer : Option SessionDesc
  answer : Option SessionDesc
  status : Option String
  deriving Repr, DecidableEq

/-- VoiceChannelState singleton document voice/current (type VoiceStateDoc):
    callId none models both null and absent (falsy in the source checks). -/
structure VoiceStateDoc where
  callId : Option String
  updatedByUid : Option String
  deriving Repr, DecidableEq

/-- Slice of the shared document store scoped to one room: the voice/current
    singleton, the calls collection keyed by id, and the voiceMembers presence
    records keyed by uid. -/
structure RoomStore where
  voiceState : Option VoiceStateDoc
  calls : List (String × CallDoc)
  voiceMembers : List String
  deriving Repr, DecidableEq

/-- Lookup of a call document by id in the calls collection. -/
def findCall (calls : List (String × CallDoc)) (cid : String) : Option CallDoc :=
  (calls.find? (fun p => p.fst == cid)).map Prod.snd

/-- Field update (updateDoc) applied to the call document with the given id;
    a missing document is left unchanged, matching the call sites where the
    failing updateDoc is wrapped in try/catch. -/
def setCallFields (calls : List (String × CallDoc)) (cid : String)
    (f : CallDoc → CallDoc) : List (String × CallDoc) :=
  calls.map (fun p => if p.fst == cid then (p.fst, f p.snd) else p)

/-- Presence upsert: setDoc keyed by uid, so inserting an existing uid is
    idempotent. -/
def upsertPresence (l : List String) (uid : String) : List String :=
  if l.contains uid then l else l ++ [uid]

/-- Local peer-transport context: whether a remote description has been set
    and how many times setRemoteDescription was invoked on it. -/
structure PeerCtx where
  remoteDesc : Option SessionDesc
  remoteApplyCount : Nat
  deriving Repr, DecidableEq

/-- Local per-client call resources: the peer connection ref, the local media
    stream ref (carrying its number of live tracks), the remote audio element
    source, and the inVoice flag. -/
structure VoiceLocal where
  pc : Option PeerCtx
  localTracks : Option Nat
  remoteSrc : Option String
  inVoice : Bool
  deriving Repr, DecidableEq

/-- Release operations performed by one cleanupCall run: how many peer
    connections were closed and how many media tracks were stopped. -/
structure TeardownFx where
  closes : Nat
  stops : Nat
  deriving Repr, DecidableEq

/-- Local teardown (cleanupCall in the source): close the peer connection if
    present and null the ref, stop every track of the local stream and null the
    ref, detach the remote audio source, clear inVoice. The returned TeardownFx
    records the release operations this run actually performed. -/
def cleanupCall (s : VoiceLocal) : VoiceLocal × TeardownFx :=
  let closes := if s.pc.isSome then 1 else 0
  let stops := s.localTracks.getD 0
  (⟨none, none, none, false⟩, ⟨closes, stops⟩)

/-- Answer-application part of the caller's session-document snapshot handler
    (startAsCaller): when the peer context has no remote description yet and
    the snapshot carries an answer, apply it as the remote description;
    otherwise leave the context untouched. -/
def applyAnswerFromSnapshot (pc : PeerCtx) (data : Option CallDoc) : PeerCtx :=
  match data with
  | none => pc
  | some d =>
    if pc.remoteDesc.isNone && d.answer.isSome then
      { pc with remoteDesc := d.answer, remoteApplyCount := pc.remoteApplyCount + 1 }
    else pc

/-- Repeated delivery of session-document snapshots to the caller's handler. -/
def applyAnswerSnapshots (pc : PeerCtx) (snaps : List (Option CallDoc)) : PeerCtx :=
  snaps.foldl applyAnswerFromSnapshot pc

/-- User-visible voice status values, one constructor per setVoiceStatus call
    site in the source (the strings themselves are Italian UI text). -/
inductive VoiceMsg
  /-- Vocale non attivo. -/
  | inactive
  /-- Non hai permessi per il vocale in questa room. -/
  | noPermission
  /-- Creo stanza vocale (in-progress text before creating the session). -/
  | creatingSession
  /-- Entro in vocale, creo sessione (in-progress text of startAsCaller). -/
  | enteringAsCaller
  /-- Entro in vocale, mi unisco (in-progress text of joinAsCallee). -/
  | enteringAsCallee
  /-- Sessione vocale non trovata. -/
  | sessionNotFound
  /-- Sessione non pronta, manca offer. -/
  | sessionNotReady
  /-- In vocale (success text). -/
  | inVoiceOk
  /-- Vocale chiuso. -/
  | closedMsg
  deriving Repr, DecidableEq

/-- Outcome of one voice-channel join attempt: the store after the attempt,
    the last status message set, the inVoice flag, and whether the microphone
    was actually acquired during the attempt. -/
structure VoiceAttemptResult where
  store : RoomStore
  statusMsg : VoiceMsg
  inVoice : Bool
  mediaAcquired : Bool
  deriving Repr, DecidableEq

/-- Callee path (joinAsCallee in the source): fetch the call; absent stops
    with sessionNotFound, missing offer stops with sessionNotReady, both
    before microphone acquisition and without any store write. Otherwise
    acquire the microphone (micOk false models getUserMedia rejecting, which
    aborts the handler with the in-progress message still displayed), apply
    the offer, and write answer plus status connected in one update. -/
def joinAsCallee (store : RoomStore) (cid : String) (micOk : Bool)
    (answerDesc : SessionDesc) : VoiceAttemptResult :=
  match findCall store.calls cid with
  | none =>
    ⟨store, VoiceMsg.sessionNotFound, false, false⟩
  | some callData =>
    match callData.offer with
    | none =>
      ⟨store, VoiceMsg.sessionNotReady, false, false⟩
    | some _ =>
      if !micOk then
        ⟨store, VoiceMsg.enteringAsCallee, false, false⟩
      else
        let calls1 := setCallFields store.calls cid
          (fun c => { c with answer := some answerDesc, status := some "connected" })
        ⟨{ store with calls := calls1 }, VoiceMsg.inVoiceOk, true, true⟩

/-- Caller path (startAsCaller in the source), entered with the session id
    already created and published: acquire the microphone first (a rejection
    aborts the handler, leaving the in-progress message and writing nothing
    further), then create the peer context, create and set the local offer,
    and write it into the call document. -/
def startAsCaller (store : RoomStore) (cid : String) (micOk : Bool)
    (offerDesc : SessionDesc) : VoiceAttemptResult :=
  if !micOk then
    ⟨store, VoiceMsg.enteringAsCaller, false, false⟩
  else
    let calls1 := setCallFields store.calls cid
      (fun c => { c with offer := some offerDesc })
    ⟨{ store with calls := calls1 }, VoiceMsg.inVoiceOk, true, true⟩

/-- Call-document creation (createCallDoc): addDoc with status open, no offer,
    no answer. The fresh document id is supplied as newCallId. -/
def createCallDoc (calls : List (String × CallDoc)) (uid newCallId : String) :
    List (String × CallDoc) :=
  calls ++ [(newCallId, ⟨some uid, none, none, some "open"⟩)]

/-- Reads the callId of the voice/current document, none when the document is
    absent, mirroring the snap.exists() fallback in the source. -/
def voiceCallIdOf (store : RoomStore) : Option String :=
  match store.voiceState with
  | some v => v.callId
  | none => none

/-- Shared-voice entry (enterVoice in the source): permission gate, idempotent
    creation of voice/current, presence upsert, then either create a new call
    and publish its id as callId before running the caller path, or join the
    existing call as callee. The microphone is only touched inside
    startAsCaller/joinAsCallee, after the shared writes of this function. -/
def enterVoice (store : RoomStore) (uid : String) (canCall : Bool) (micOk : Bool)
    (newCallId : String) (offerDesc answerDesc : SessionDesc) : VoiceAttemptResult :=
  if !canCall then
    ⟨store, VoiceMsg.noPermission, false, false⟩
  else
    let store1 :=
      if store.voiceState.isNone then
        { store with voiceState := some ⟨none, some uid⟩ }
      else store
    let store2 := { store1 with voiceMembers := upsertPresence store1.voiceMembers uid }
    match voiceCallIdOf store2 with
    | none =>
      let store3 := { store2 with calls := createCallDoc store2.calls uid newCallId }
      let store4 := { store3 with voiceState := some ⟨some newCallId, some uid⟩ }
      startAsCaller store4 newCallId micOk offerDesc
    | some cid =>
      joinAsCallee store2 cid micOk answerDesc

/-- Admin close-for-all (closeVoiceForAll in the source): a non-admin caller
    returns immediately with no write; an admin marks the call referenced by
    voice/current (if any) ended, then resets voice/current to a null callId. -/
def closeVoiceForAll (isAdmin : Bool) (uid : Option String) (store : RoomStore) :
    RoomStore :=
  if !isAdmin then store
  else
    let calls1 :=
      match voiceCallIdOf store with
      | some cid => setCallFields store.calls cid (fun c => { c with status := some "ended" })
      | none => store.calls
    { store with calls := calls1, voiceState := some ⟨none, uid⟩ }

/-- Invite-code alphabet used by randomCode: uppercase letters without O and I,
    digits without 0 and 1. -/
def codeAlphabet : List Char := "ABCDEFGHJKLMNPQRSTUVWXYZ23456789".toList

/-- Invite-code generation (randomCode in the source): one alphabet character
    per random draw. A draw k models floor(random times alphabet length), so the
    source guarantees k below 32; out-of-range indices keep the fallback only to
    stay total. -/
def randomCode (draws : List Nat) : List Char :=
  draws.map (fun k => codeAlphabet.getD k 'A')

/-- Whitespace recognized by the JavaScript trim used on code input; the
    generated alphabet never contains any of these. -/
def isJsSpace (c : Char) : Bool :=
  c == ' ' || c == '\t' || c == '\n' || c == '\x0d' || c == '\x0b' || c == '\x0c'

/-- Uppercasing applied by toUpperCase on code input, char by char (ASCII
    range, which covers every character of the code alphabet). -/
def jsToUpper (l : List Char) : List Char :=
  l.map Char.toUpper

/-- Both-ends whitespace strip applied by trim on code input. -/
def jsTrim (l : List Char) : List Char :=
  ((l.dropWhile isJsSpace).reverse.dropWhile isJsSpace).reverse

/-- Normalization of the code typed on the home page (enterRoom in the
    source): trim, then uppercase. -/
def normalizeEnterRoomCode (l : List Char) : List Char :=
  jsToUpper (jsTrim l)

/-- Normalization of the code taken from the join page URL (JoinPage lookup
    effect): uppercase, then trim. -/
def normalizeJoinPageCode (l : List Char) : List Char :=
  jsTrim (jsToUpper l)

/-! Helper lemmas shared by the claim theorems. -/

theorem applyAnswer_fixed_of_some (p : PeerCtx) (h : p.remoteDesc.isSome = true)
    (s : Option CallDoc) : applyAnswerFromSnapshot p s = p := by
  cases s with
  | none => rfl
  | some d =>
    cases hr : p.remoteDesc with
    | none => rw [hr] at h; cases h
    | some x => simp [applyAnswerFromSnapshot, hr]

theorem applyAnswerSnapshots_fixed (p : PeerCtx) (h : p.remoteDesc.isSome = true)
    (s : Option CallDoc) (k : Nat) :
    applyAnswerSnapshots p (List.replicate k s) = p := by
  induction k with
  | zero => rfl
  | succ k ih =>
    rw [List.replicate_succ]
    show applyAnswerSnapshots (applyAnswerFromSnapshot p s) (List.replicate k s) = p
    rw [applyAnswer_fixed_of_some p h s]
    exact ih

theorem findCall_setCallFields_self (calls : List (String × CallDoc)) (cid : String)
    (f : CallDoc → CallDoc) :
    findCall (setCallFields calls cid f) cid = (findCall calls cid).map f := by
  induction calls with
  | nil => rfl
  | cons p rest ih =>
    unfold findCall setCallFields
    simp only [List.map_cons]
    by_cases h : (p.fst == cid) = true
    · rw [if_pos h]
      have h1 : List.find? (fun q => q.fst == cid)
          ((p.fst, f p.snd) ::
            List.map (fun q => if (q.fst == cid) = true then (q.fst, f q.snd) else q) rest)
          = some (p.fst, f p.snd) := List.find?_cons_of_pos _ h
      have h2 : List.find? (fun q => q.fst == cid) (p :: rest) = some p :=
        List.find?_cons_of_pos _ h
      rw [h1, h2]
      rfl
    · rw [if_neg h]
      have h1 : List.find? (fun q => q.fst == cid)
          (p :: List.map (fun q => if (q.fst == cid) = true then (q.fst, f q.snd) else q) rest)
          = List.find? (fun q => q.fst == cid)
              (List.map (fun q => if (q.fst == cid) = true then (q.fst, f q.snd) else q) rest) :=
        List.find?_cons_of_neg _ h
      have h2 : List.find? (fun q => q.fst == cid) (p :: rest)
          = List.find? (fun q => q.fst == cid) rest :=
        List.find?_cons_of_neg _ h
      rw [h1, h2]
      exact ih

theorem findCall_append_self (l : List (String × CallDoc)) (k : String) (c : CallDoc)
    (h : findCall l k = none) : findCall (l ++ [(k, c)]) k = some c := by
  induction l with
  | nil =>
    show findCall [(k, c)] k = some c
    unfold findCall
    have h1 : List.find? (fun q => q.fst == k) [(k, c)] = some (k, c) :=
      List.find?_cons_of_pos _ (by simp)
    rw [h1]
    rfl
  | cons p rest ih =>
    unfold findCall at h ⊢
    by_cases hb : (p.fst == k) = true
    · have h1 : List.find? (fun q => q.fst == k) (p :: rest) = some p :=
        List.find?_cons_of_pos _ hb
      rw [h1] at h
      simp at h
    · have h1 : List.find? (fun q => q.fst == k) (p :: rest)
          = List.find? (fun q => q.fst == k) rest :=
        List.find?_cons_of_neg _ hb
      have h2 : List.find? (fun q => q.fst == k) (p :: (rest ++ [(k, c)]))
          = List.find? (fun q => q.fst == k) (rest ++ [(k, c)]) :=
        List.find?_cons_of_neg _ hb
      rw [List.cons_append, h2]
      rw [h1] at h
      exact ih h

theorem upsertPresence_contains (l : List String) (uid : String) :
    uid ∈ upsertPresence l uid := by
  unfold upsertPresence
  by_cases h : (l.contains uid) = true
  · rw [if_pos h]
    exact List.mem_of_elem_eq_true h
  · rw [if_neg h]
    simp

theorem enterVoice_create_eval (store : RoomStore) (uid cid : String)
    (micOk : Bool) (off ans : SessionDesc)
    (h : voiceCallIdOf store = none) :
    enterVoice store uid true micOk cid off ans
      = startAsCaller
          { store with
            voiceState := some ⟨some cid, some uid⟩,
            calls := createCallDoc store.calls uid cid,
            voiceMembers := upsertPresence store.voiceMembers uid }
          cid micOk off := by
  unfold enterVoice
  cases hvs : store.voiceState with
  | none =>
    simp [hvs, voiceCallIdOf]
  | some v =>
    have hcid : v.callId = none := by
      unfold voiceCallIdOf at h
      rw [hvs] at h
      exact h
    simp [hvs, voiceCallIdOf, hcid]

theorem codeAlphabet_getD_mem : ∀ k, k < 32 → codeAlphabet.getD k 'A' ∈ codeAlphabet := by
  decide

theorem codeAlphabet_not_space : ∀ ch ∈ codeAlphabet, isJsSpace ch = false := by
  decide

theorem toUpper_space_fixed (c : Char) (h : isJsSpace c = true) : Char.toUpper c = c := by
  unfold isJsSpace at h
  simp only [Bool.or_eq_true, beq_iff_eq] at h
  rcases h with ((((h | h) | h) | h) | h) | h <;> subst h <;> decide

theorem dropWhile_append_of_all (p : Char → Bool) (ws t : List Char)
    (h : ∀ x ∈ ws, p x = true) :
    List.dropWhile p (ws ++ t) = List.dropWhile p t := by
  induction ws with
  | nil => rfl
  | cons a l ih =>
    rw [List.cons_append, List.dropWhile_cons, h a (List.mem_cons_self a l)]
    show List.dropWhile p (l ++ t) = List.dropWhile p t
    exact ih (fun x hx => h x (List.mem_cons_of_mem a hx))

theorem dropWhile_eq_nil_of_all (p : Char → Bool) (l : List Char)
    (h : ∀ x ∈ l, p x = true) : List.dropWhile p l = [] := by
  induction l with
  | nil => rfl
  | cons a t ih =>
    rw [List.dropWhile_cons, h a (List.mem_cons_self a t)]
    show List.dropWhile p t = []
    exact ih (fun x hx => h x (List.mem_cons_of_mem a hx))

theorem dropWhile_eq_self_of_head (p : Char → Bool) (a : Char) (t : List Char)
    (h : p a = false) : List.dropWhile p (a :: t) = a :: t := by
  rw [List.dropWhile_cons, h]
  show a :: t = a :: t
  rfl

theorem dropWhile_eq_self_of_all (p : Char → Bool) (l : List Char)
    (h : ∀ x ∈ l, p x = false) : List.dropWhile p l = l := by
  cases l with
  | nil => rfl
  | cons a t => exact dropWhile_eq_self_of_head p a t (h a (List.mem_cons_self a t))

theorem jsToUpper_space_fixed (ws : List Char) (h : ∀ x ∈ ws, isJsSpace x = true) :
    jsToUpper ws = ws := by
  induction ws with
  | nil => rfl
  | cons a l ih =>
    unfold jsToUpper at ih ⊢
    rw [List.map_cons, toUpper_space_fixed a (h a (List.mem_cons_self a l)),
      ih (fun x hx => h x (List.mem_cons_of_mem a hx))]

theorem jsTrim_padded (d ws1 ws2 : List Char)
    (hd : ∀ x ∈ d, isJsSpace x = false)
    (h1 : ∀ x ∈ ws1, isJsSpace x = true)
    (h2 : ∀ x ∈ ws2, isJsSpace x = true) :
    jsTrim (ws1 ++ d ++ ws2) = d := by
  unfold jsTrim
  rw [List.append_assoc, dropWhile_append_of_all _ _ _ h1]
  cases d with
  | nil =>
    rw [List.nil_append, dropWhile_eq_nil_of_all _ _ h2]
    rfl
  | cons a t =>
    have ha : isJsSpace a = false := hd a (List.mem_cons_self a t)
    rw [List.cons_append, dropWhile_eq_self_of_head _ _ _ ha]
    rw [List.reverse_cons, List.reverse_append, List.append_assoc,
      dropWhile_append_of_all _ _ _ (fun x hx => h2 x (List.mem_reverse.mp hx))]
    have hall : ∀ x ∈ t.reverse ++ [a], isJsSpace x = false := by
      intro x hx
      rcases List.mem_append.mp hx with hx | hx
      · exact hd x (List.mem_cons_of_mem a (List.mem_reverse.mp hx))
      · rcases List.mem_singleton.mp hx with rfl
        exact ha
    rw [dropWhile_eq_self_of_all _ _ hall]
    simp

/-! Claim theorems. -/

/-- C5: for every loaded room and every authenticated member whose role is
    admin, both resolvers return true for all lock, default and override
    values. -/
theorem admin_resolves_true (r : RoomData) (ov1 ov2 : Option Bool) :
    effectiveCanChat true (some r) true ov1 = true ∧
    effectiveCanCall true (some r) true ov2 = true :=
  ⟨rfl, rfl⟩

/-- C4: with lockChat set to true, a non-admin authenticated member resolves
    chat to false, for every override value and every room default. -/
theorem lockChat_blocks_nonadmin (nm au jc : String)
    (dcc dcl lcl : Option Bool) (ov : Option Bool) :
    effectiveCanChat true (some ⟨nm, au, jc, dcc, dcl, some true, lcl⟩) false ov = false :=
  rfl

/-- C3: for an authenticated non-admin member with the capability lock false,
    a boolean override wins over the room default for that capability, and an
    unset override falls back to the room default. -/
theorem nonadmin_override_and_default (nm au jc : String) (dChat dCall b c : Bool) :
    effectiveCanChat true (some ⟨nm, au, jc, some dChat, some dCall, some false, some false⟩)
        false (some b) = b ∧
    effectiveCanChat true (some ⟨nm, au, jc, some dChat, some dCall, some false, some false⟩)
        false none = dChat ∧
    effectiveCanCall true (some ⟨nm, au, jc, some dChat, some dCall, some false, some false⟩)
        false (some c) = c ∧
    effectiveCanCall true (some ⟨nm, au, jc, some dChat, some dCall, some false, some false⟩)
        false none = dCall :=
  ⟨rfl, rfl, rfl, rfl⟩

/-- C1 counterexample: a concrete room entry by a non-admin user (uid user2,
    admin is admin1, room created with no stored settings) writes explicit
    boolean values into both canChat and canCall, so the upsert does not leave
    the override fields unset. -/
theorem member_upsert_writes_booleans_cex :
    (roomEntryMemberWrite (roomBackfill ⟨"Room", "admin1", "ABC234", none, none, none, none⟩)
        "user2" "Bob").role = "member" ∧
    (roomEntryMemberWrite (roomBackfill ⟨"Room", "admin1", "ABC234", none, none, none, none⟩)
        "user2" "Bob").canChat = some true ∧
    (roomEntryMemberWrite (roomBackfill ⟨"Room", "admin1", "ABC234", none, none, none, none⟩)
        "user2" "Bob").canCall = some true := by
  refine ⟨by decide, by decide, by decide⟩

/-- C1 amended: the room-entry upsert always writes boolean canChat and
    canCall values, namely true for the admin and the backfilled room default
    for a non-admin member; the fields are never left unset by the upsert. -/
theorem member_upsert_writes_defaults (r : RoomData) (uid uname : String) :
    (roomEntryMemberWrite (roomBackfill r) uid uname).canChat
      = some (if r.adminUid == uid then true else r.defaultCanChat.getD true) ∧
    (roomEntryMemberWrite (roomBackfill r) uid uname).canCall
      = some (if r.adminUid == uid then true else r.defaultCanCall.getD true) ∧
    (roomEntryMemberWrite (roomBackfill r) uid uname).canChat.isSome = true ∧
    (roomEntryMemberWrite (roomBackfill r) uid uname).canCall.isSome = true :=
  ⟨rfl, rfl, rfl, rfl⟩

/-- C7: teardown is idempotent: running cleanupCall on the state produced by
    cleanupCall yields that same state, and the second run performs zero close
    and zero stop operations, so nothing is double-released. -/
theorem cleanup_idempotent (s : VoiceLocal) :
    (cleanupCall (cleanupCall s).fst).fst = (cleanupCall s).fst ∧
    (cleanupCall (cleanupCall s).fst).snd = ⟨0, 0⟩ :=
  ⟨rfl, rfl⟩

/-- C6: on the caller path, a snapshot carrying an answer is applied as the
    remote description exactly once: from a peer context without a remote
    description, the first delivery stores the answer and bumps the apply
    count by one, and any number of further deliveries of the same snapshot
    leave the context unchanged. -/
theorem caller_answer_applied_once (n k : Nat) (a : SessionDesc)
    (cb : Option String) (off : Option SessionDesc) (st : Option String) :
    (applyAnswerFromSnapshot ⟨none, n⟩ (some ⟨cb, off, some a, st⟩)).remoteDesc = some a ∧
    (applyAnswerFromSnapshot ⟨none, n⟩ (some ⟨cb, off, some a, st⟩)).remoteApplyCount = n + 1 ∧
    applyAnswerSnapshots (applyAnswerFromSnapshot ⟨none, n⟩ (some ⟨cb, off, some a, st⟩))
        (List.replicate k (some ⟨cb, off, some a, st⟩))
      = applyAnswerFromSnapshot ⟨none, n⟩ (some ⟨cb, off, some a, st⟩) := by
  refine ⟨rfl, rfl, ?_⟩
  exact applyAnswerSnapshots_fixed
    (applyAnswerFromSnapshot ⟨none, n⟩ (some ⟨cb, off, some a, st⟩)) rfl
    (some ⟨cb, off, some a, st⟩) k

/-- C8: close-for-all invoked by an admin on a store whose voice/current
    points at an existing call marks that call ended and resets the callId
    pointer to null, while a non-admin invocation leaves the store untouched. -/
theorem close_for_all_admin_and_noop (store : RoomStore) (uid : Option String)
    (v : VoiceStateDoc) (cid : String) (c : CallDoc)
    (hv : store.voiceState = some v) (hcid : v.callId = some cid)
    (hc : findCall store.calls cid = some c) :
    findCall (closeVoiceForAll true uid store).calls cid
        = some { c with status := some "ended" } ∧
    voiceCallIdOf (closeVoiceForAll true uid store) = none ∧
    closeVoiceForAll false uid store = store := by
  have hvc : voiceCallIdOf store = some cid := by
    unfold voiceCallIdOf
    rw [hv]
    exact hcid
  refine ⟨?_, rfl, rfl⟩
  simp only [closeVoiceForAll, Bool.not_true, Bool.false_eq_true, if_false, hvc]
  rw [findCall_setCallFields_self, hc]
  rfl

/-- C8 witness: concrete admin close on a store with one open call, and the
    concrete non-admin no-op on the same store. -/
theorem close_for_all_admin_and_noop_witness :
    findCall (closeVoiceForAll true (some "a1")
        ⟨some ⟨some "c1", some "u1"⟩, [("c1", ⟨some "u1", none, none, some "open"⟩)], []⟩).calls "c1"
      = some ⟨some "u1", none, none, some "ended"⟩ ∧
    voiceCallIdOf (closeVoiceForAll true (some "a1")
        ⟨some ⟨some "c1", some "u1"⟩, [("c1", ⟨some "u1", none, none, some "open"⟩)], []⟩) = none ∧
    closeVoiceForAll false (some "a1")
        ⟨some ⟨some "c1", some "u1"⟩, [("c1", ⟨some "u1", none, none, some "open"⟩)], []⟩
      = ⟨some ⟨some "c1", some "u1"⟩, [("c1", ⟨some "u1", none, none, some "open"⟩)], []⟩ :=
  close_for_all_admin_and_noop
    ⟨some ⟨some "c1", some "u1"⟩, [("c1", ⟨some "u1", none, none, some "open"⟩)], []⟩
    (some "a1") ⟨some "c1", some "u1"⟩ "c1" ⟨some "u1", none, none, some "open"⟩
    rfl rfl (by decide)

/-- C9: callee-path prechecks: an absent target session stops the attempt
    with the session-not-found report and a present session without an offer
    stops it with the not-ready report; in both cases the store is unchanged
    (no answer, status or candidate write), the client does not enter voice,
    and the microphone is never acquired. -/
theorem callee_prechecks_stop (s1 s2 : RoomStore) (cid1 cid2 : String)
    (m1 m2 : Bool) (a1 a2 : SessionDesc) (c : CallDoc)
    (h1 : findCall s1.calls cid1 = none)
    (h2 : findCall s2.calls cid2 = some c) (h3 : c.offer = none) :
    joinAsCallee s1 cid1 m1 a1 = ⟨s1, VoiceMsg.sessionNotFound, false, false⟩ ∧
    joinAsCallee s2 cid2 m2 a2 = ⟨s2, VoiceMsg.sessionNotReady, false, false⟩ := by
  constructor
  · unfold joinAsCallee
    rw [h1]
  · cases c with
    | mk cb coff cans cst =>
      have h4 : coff = none := h3
      subst h4
      unfold joinAsCallee
      rw [h2]

/-- C9 witness: concrete absent session and concrete offer-less session. -/
theorem callee_prechecks_stop_witness :
    joinAsCallee ⟨none, [], []⟩ "x" true ⟨"a", "s"⟩
        = ⟨⟨none, [], []⟩, VoiceMsg.sessionNotFound, false, false⟩ ∧
    joinAsCallee ⟨none, [("c1", ⟨some "u1", none, none, some "open"⟩)], []⟩ "c1" true ⟨"a", "s"⟩
        = ⟨⟨none, [("c1", ⟨some "u1", none, none, some "open"⟩)], []⟩,
            VoiceMsg.sessionNotReady, false, false⟩ :=
  callee_prechecks_stop ⟨none, [], []⟩
    ⟨none, [("c1", ⟨some "u1", none, none, some "open"⟩)], []⟩
    "x" "c1" true true ⟨"a", "s"⟩ ⟨"a", "s"⟩ ⟨some "u1", none, none, some "open"⟩
    rfl (by decide) rfl

/-- C2 counterexample: a concrete shared-voice join attempt in which the
    microphone acquisition fails (empty store, permitted user u1, fresh call
    id c1) ends with VoiceChannelState referencing the newly created open
    CallSession, so a failed attempt does leave a session referenced by the
    activeCallId pointer, contradicting the claimed rollback. -/
theorem mic_failure_counterexample :
    (enterVoice ⟨none, [], []⟩ "u1" true false "c1" ⟨"offer", "s"⟩ ⟨"answer", "s"⟩).mediaAcquired
        = false ∧
    (enterVoice ⟨none, [], []⟩ "u1" true false "c1" ⟨"offer", "s"⟩ ⟨"answer", "s"⟩).inVoice = false ∧
    voiceCallIdOf (enterVoice ⟨none, [], []⟩ "u1" true false "c1" ⟨"offer", "s"⟩ ⟨"answer", "s"⟩).store
        = some "c1" ∧
    findCall (enterVoice ⟨none, [], []⟩ "u1" true false "c1" ⟨"offer", "s"⟩
        ⟨"answer", "s"⟩).store.calls "c1"
        = some ⟨some "u1", none, none, some "open"⟩ := by
  refine ⟨by decide, by decide, by decide, by decide⟩

/-- C2 amended: in the caller branch of a shared-voice join, the session id is
    published to VoiceChannelState before microphone acquisition, so when the
    microphone fails the attempt aborts with the pointer still referencing the
    newly created open CallSession, the presence record still in place, the
    in-progress status text still showing (no dedicated error surfaced), and
    the client not in voice. -/
theorem mic_failure_leaves_session (store : RoomStore) (uid newCallId : String)
    (off ans : SessionDesc)
    (hNoActive : voiceCallIdOf store = none)
    (hFresh : findCall store.calls newCallId = none) :
    (enterVoice store uid true false newCallId off ans).mediaAcquired = false ∧
    (enterVoice store uid true false newCallId off ans).inVoice = false ∧
    (enterVoice store uid true false newCallId off ans).statusMsg = VoiceMsg.enteringAsCaller ∧
    voiceCallIdOf (enterVoice store uid true false newCallId off ans).store = some newCallId ∧
    findCall (enterVoice store uid true false newCallId off ans).store.calls newCallId
        = some ⟨some uid, none, none, some "open"⟩ ∧
    uid ∈ (enterVoice store uid true false newCallId off ans).store.voiceMembers := by
  have he := enterVoice_create_eval store uid newCallId false off ans hNoActive
  rw [he]
  refine ⟨rfl, rfl, rfl, rfl, ?_, ?_⟩
  · show findCall (store.calls ++ [(newCallId, ⟨some uid, none, none, some "open"⟩)]) newCallId
        = some ⟨some uid, none, none, some "open"⟩
    exact findCall_append_self store.calls newCallId ⟨some uid, none, none, some "open"⟩ hFresh
  · show uid ∈ upsertPresence store.voiceMembers uid
    exact upsertPresence_contains store.voiceMembers uid

/-- C2 amended witness: the amended statement at a concrete empty store. -/
theorem mic_failure_leaves_session_witness :
    (enterVoice ⟨none, [], []⟩ "u2" true false "c9" ⟨"o", "s"⟩ ⟨"a", "s"⟩).mediaAcquired = false ∧
    (enterVoice ⟨none, [], []⟩ "u2" true false "c9" ⟨"o", "s"⟩ ⟨"a", "s"⟩).inVoice = false ∧
    (enterVoice ⟨none, [], []⟩ "u2" true false "c9" ⟨"o", "s"⟩
        ⟨"a", "s"⟩).statusMsg = VoiceMsg.enteringAsCaller ∧
    voiceCallIdOf (enterVoice ⟨none, [], []⟩ "u2" true false "c9" ⟨"o", "s"⟩
        ⟨"a", "s"⟩).store = some "c9" ∧
    findCall (enterVoice ⟨none, [], []⟩ "u2" true false "c9" ⟨"o", "s"⟩
        ⟨"a", "s"⟩).store.calls "c9"
        = some ⟨some "u2", none, none, some "open"⟩ ∧
    "u2" ∈ (enterVoice ⟨none, [], []⟩ "u2" true false "c9" ⟨"o", "s"⟩
        ⟨"a", "s"⟩).store.voiceMembers :=
  mic_failure_leaves_session ⟨none, [], []⟩ "u2" "c9" ⟨"o", "s"⟩ ⟨"a", "s"⟩ rfl rfl

/-- C10: every generated invite code has length 6 with all characters in the
    restricted alphabet, and any case variant of it surrounded by whitespace
    is normalized back to the stored code both by the home-page code entry
    (trim then uppercase) and by the join page (uppercase then trim). -/
theorem invite_code_round_trip (draws : List Nat) (d ws1 ws2 : List Char)
    (hlen : draws.length = 6)
    (hdraws : ∀ k ∈ draws, k < 32)
    (hws1 : ∀ x ∈ ws1, isJsSpace x = true)
    (hws2 : ∀ x ∈ ws2, isJsSpace x = true)
    (hvar : jsToUpper d = randomCode draws) :
    (randomCode draws).length = 6 ∧
    (∀ ch ∈ randomCode draws, ch ∈ codeAlphabet) ∧
    normalizeEnterRoomCode (ws1 ++ d ++ ws2) = randomCode draws ∧
    normalizeJoinPageCode (ws1 ++ d ++ ws2) = randomCode draws := by
  have hmem : ∀ ch ∈ randomCode draws, ch ∈ codeAlphabet := by
    intro ch hch
    rcases List.mem_map.mp hch with ⟨k, hk, rfl⟩
    exact codeAlphabet_getD_mem k (hdraws k hk)
  have hcns : ∀ ch ∈ randomCode draws, isJsSpace ch = false :=
    fun ch hch => codeAlphabet_not_space ch (hmem ch hch)
  have hdns : ∀ x ∈ d, isJsSpace x = false := by
    intro x hx
    cases hsp : isJsSpace x with
    | false => rfl
    | true =>
      have hup : Char.toUpper x ∈ randomCode draws := by
        rw [← hvar]
        exact List.mem_map_of_mem _ hx
      have hz := hcns _ hup
      rw [toUpper_space_fixed x hsp, hsp] at hz
      cases hz
  have htrim : jsTrim (ws1 ++ d ++ ws2) = d := jsTrim_padded d ws1 ws2 hdns hws1 hws2
  refine ⟨?_, hmem, ?_, ?_⟩
  · unfold randomCode
    rw [List.length_map, hlen]
  · unfold normalizeEnterRoomCode
    rw [htrim, hvar]
  · unfold normalizeJoinPageCode
    have hau : jsToUpper (ws1 ++ d ++ ws2) = ws1 ++ randomCode draws ++ ws2 := by
      unfold jsToUpper
      rw [List.map_append, List.map_append]
      rw [show List.map Char.toUpper ws1 = ws1 from jsToUpper_space_fixed ws1 hws1]
      rw [show List.map Char.toUpper ws2 = ws2 from jsToUpper_space_fixed ws2 hws2]
      rw [show List.map Char.toUpper d = randomCode draws from hvar]
    rw [hau]
    exact jsTrim_padded _ _ _ hcns hws1 hws2

/-- C10 witness: a concrete six-draw code AB2389, typed as aB2389 with
    surrounding whitespace, normalizes back to the generated code on both
    input paths. -/
theorem invite_code_round_trip_witness :
    (randomCode [0, 1, 24, 25, 30, 31]).length = 6 ∧
    (∀ ch ∈ randomCode [0, 1, 24, 25, 30, 31], ch ∈ codeAlphabet) ∧
    normalizeEnterRoomCode ([' '] ++ "aB2389".toList ++ ['\n'])
        = randomCode [0, 1, 24, 25, 30, 31] ∧
    normalizeJoinPageCode ([' '] ++ "aB2389".toList ++ ['\n'])
        = randomCode [0, 1, 24, 25, 30, 31] :=
  invite_code_round_trip [0, 1, 24, 25, 30, 31] "aB2389".toList [' '] ['\n']
    (by decide) (by decide) (by decide) (by decide) (by decide)

end ScoutApp
